import Mathlib

/-!
Shallow embedding of the session-analysis engine of the
openreplay-mcp-server repository.

The embedded code is `SessionAnalyzer.analyze_session_patterns` and
`SessionAnalyzer.generate_insights` from `openreplay_mcp_working.py`
(the working-server variant), together with the extra aggregations of the
full-server variant in `openreplay_mcp_server.py` (issue types, critical
issues, avg_sessions_per_user).

Modelling choices, each noted at its definition:
  - a session record is a Python dict read through `.get` with defaults;
    it becomes a structure of `Option` fields, read through `Option.getD`;
  - Python dicts used as frequency tables preserve insertion order; they
    become association lists, updated by `dictIncr`;
  - Python floats become rationals; every arithmetic the claims touch is
    division and comparison of small integers, where float and exact
    rational comparison outcomes coincide;
  - `datetime.fromtimestamp(ts / 1000).hour` depends on the local time
    zone, so the hour extraction is a parameter of type `Int → Fin 24`
    (the Python `.hour` always lies in `0..23`);
  - `sorted(..., key=lambda x: x[1], reverse=True)` is the stable
    descending sort by the second component, which equals
    `List.insertionSort` with the relation `b.2 ≤ a.2`.
-/

/-- A session record as read by the analyzer: every field is optional, a
missing field makes `session.get(key, default)` return the default. -/
structure Session where
  duration : Option Int := none
  pagesCount : Option Int := none
  eventsCount : Option Int := none
  errorsCount : Option Int := none
  userBrowser : Option String := none
  userDevice : Option String := none
  platform : Option String := none
  userCountry : Option String := none
  userId : Option String := none
  userUuid : Option String := none
  startTs : Option Int := none
  issueTypes : List String := []
deriving Repr, DecidableEq

/-- Lookup in a Python dict used as a frequency table:
`d.get(k, dflt)`. -/
def dictGetD : List (String × Nat) → String → Nat → Nat
  | [], _, dflt => dflt
  | (k1, v) :: rest, k, dflt => if k1 = k then v else dictGetD rest k dflt

/-- The update `d[key] = d.get(key, 0) + 1` on a Python dict: bump an
existing key in place, or append a fresh key at the end (Python dicts
keep insertion order). -/
def dictIncr (k : String) : List (String × Nat) → List (String × Nat)
  | [] => [(k, 1)]
  | (k1, v) :: rest => if k1 = k then (k1, v + 1) :: rest else (k1, v) :: dictIncr k rest

/-- Sum of the values of a frequency table: `sum(d.values())`. -/
def dictValuesSum (d : List (String × Nat)) : Nat :=
  (d.map Prod.snd).sum

/-- The key under which a session is tallied in the browser table:
`session.get('userBrowser', 'Unknown')`. -/
def browserKey (s : Session) : String :=
  s.userBrowser.getD "Unknown"

/-- The key under which a session is tallied in the device table:
`session.get('userDevice', 'Desktop') or 'Desktop'`; the `or` also maps a
present falsy value (the empty string) to the default. -/
def deviceKey (s : Session) : String :=
  match s.userDevice with
  | none => "Desktop"
  | some d => if d = "" then "Desktop" else d

/-- The key for the platform table: `session.get('platform', 'web')`. -/
def platformKey (s : Session) : String :=
  s.platform.getD "web"

/-- The key for the country table: `session.get('userCountry', 'Unknown')`. -/
def countryKey (s : Session) : String :=
  s.userCountry.getD "Unknown"

/-- The browser frequency table built by the loop
`browsers[browser] = browsers.get(browser, 0) + 1`. -/
def browsersOf (sessions : List Session) : List (String × Nat) :=
  sessions.foldl (fun d s => dictIncr (browserKey s) d) []

/-- The device frequency table built by the loop
`devices[device] = devices.get(device, 0) + 1`. -/
def devicesOf (sessions : List Session) : List (String × Nat) :=
  sessions.foldl (fun d s => dictIncr (deviceKey s) d) []

/-- The platform frequency table. -/
def platformsOf (sessions : List Session) : List (String × Nat) :=
  sessions.foldl (fun d s => dictIncr (platformKey s) d) []

/-- The country frequency table. -/
def countriesOf (sessions : List Session) : List (String × Nat) :=
  sessions.foldl (fun d s => dictIncr (countryKey s) d) []

/-- The issue-type frequency table of the full-server variant, built by
`for issue in session.get('issueTypes', []): issue_types[issue] += 1`. -/
def issueTypesOf (sessions : List Session) : List (String × Nat) :=
  sessions.foldl (fun d s => s.issueTypes.foldl (fun d1 i => dictIncr i d1) d) []

/-- One bump of `hourly_distribution[hour] += 1`. -/
def bumpHour (h : Fin 24) (l : List Nat) : List Nat :=
  l.set h.val (l.getD h.val 0 + 1)

/-- The 24-slot hour histogram. The guard `if session.get('startTs'):`
skips a missing timestamp and also a present zero one (falsy). The local
time dependent `datetime.fromtimestamp(ts / 1000).hour` is the parameter
`hourOf`. -/
def hourlyOf (hourOf : Int → Fin 24) (sessions : List Session) : List Nat :=
  sessions.foldl
    (fun l s =>
      match s.startTs with
      | some ts => if ts ≠ 0 then bumpHour (hourOf ts) l else l
      | none => l)
    (List.replicate 24 0)

/-- The stable descending sort by count:
`sorted(items, key=lambda x: x[1], reverse=True)`. Python sorted is
stable and `reverse=True` reverses the comparison, not the order of
ties, so it is insertion sort with the relation `b.2 ≤ a.2`. -/
def sortDescByCount {α : Type} (l : List (α × Nat)) : List (α × Nat) :=
  l.insertionSort (fun a b => b.2 ≤ a.2)

/-- Top-3 peak hours: `sorted(enumerate(hourly_distribution), key=lambda
x: x[1], reverse=True)[:3]`. -/
def peakHoursOf (hist : List Nat) : List (Nat × Nat) :=
  (sortDescByCount hist.enum).take 3

/-- First key attaining the maximum value, as computed by
`max(d, key=d.get)`: the Python max scan replaces the current best only
on a strictly greater key value. Only called on non-empty tables. -/
def maxByValue (p : String × Nat) (rest : List (String × Nat)) : String :=
  (rest.foldl (fun best q => if best.2 < q.2 then q else best) p).1

/-- The summary ("patterns") dict returned by
`analyze_session_patterns` on a non-empty input, working-server
variant. -/
structure Patterns where
  total_sessions : Nat
  unique_users : Nat
  geographic_distribution : List (String × Nat)
  top_countries : List (String × Nat)
  browsers : List (String × Nat)
  devices : List (String × Nat)
  platforms : List (String × Nat)
  top_browser : String
  mobile_percentage : ℚ
  avg_duration : ℚ
  avg_pages : ℚ
  avg_events : ℚ
  bounce_rate : ℚ
  high_engagement_sessions : Nat
  error_rate : ℚ
  sessions_with_errors : Nat
  hourly_distribution : List Nat
  peak_hours : List (Nat × Nat)
deriving Repr, DecidableEq

/-- The metric block computed after the loop of
`analyze_session_patterns` (working-server variant), for a non-empty
session list. Each field mirrors one assignment of the source; the
`if num_sessions > 0 else 0` guards of the source are kept. -/
def mkPatterns (hourOf : Int → Fin 24) (sessions : List Session) : Patterns :=
  let numSessions : Nat := sessions.length
  let n : ℚ := numSessions
  let browsers := browsersOf sessions
  let devices := devicesOf sessions
  let countries := countriesOf sessions
  let totalDuration : Int := sessions.foldl (fun acc s => acc + s.duration.getD 0) 0
  let totalPages : Int := sessions.foldl (fun acc s => acc + s.pagesCount.getD 0) 0
  let totalEvents : Int := sessions.foldl (fun acc s => acc + s.eventsCount.getD 0) 0
  let sessionsWithErrors : Nat := sessions.countP (fun s => 0 < s.errorsCount.getD 0)
  let hourly := hourlyOf hourOf sessions
  { total_sessions := numSessions
    unique_users := ((sessions.map fun s => s.userId.getD (s.userUuid.getD "")).dedup).length
    geographic_distribution := countries
    top_countries := (sortDescByCount countries).take 5
    browsers := browsers
    devices := devices
    platforms := platformsOf sessions
    top_browser := match browsers with
      | [] => "Unknown"
      | p :: rest => maxByValue p rest
    mobile_percentage := if 0 < numSessions then (dictGetD devices "Mobile" 0 : ℚ) / n * 100 else 0
    avg_duration := if 0 < numSessions then (totalDuration : ℚ) / n else 0
    avg_pages := if 0 < numSessions then (totalPages : ℚ) / n else 0
    avg_events := if 0 < numSessions then (totalEvents : ℚ) / n else 0
    bounce_rate := if 0 < numSessions then
        (sessions.countP (fun s => s.pagesCount.getD 0 ≤ 1) : ℚ) / n * 100 else 0
    high_engagement_sessions := sessions.countP (fun s => 300000 < s.duration.getD 0)
    error_rate := if 0 < numSessions then (sessionsWithErrors : ℚ) / n * 100 else 0
    sessions_with_errors := sessionsWithErrors
    hourly_distribution := hourly
    peak_hours := peakHoursOf hourly }

/-- Result of `analyze_session_patterns`: the sentinel dict
`{"error": "No sessions to analyze"}` on an empty input, the patterns
summary otherwise. -/
inductive AnalyzeResult where
  | error (msg : String)
  | ok (p : Patterns)
deriving Repr, DecidableEq

/-- `SessionAnalyzer.analyze_session_patterns` (working-server
variant): empty input returns the sentinel, otherwise the summary. -/
def analyze_session_patterns (hourOf : Int → Fin 24) (sessions : List Session) : AnalyzeResult :=
  if sessions.isEmpty then .error "No sessions to analyze"
  else .ok (mkPatterns hourOf sessions)

/-- One insight line of `generate_insights` (working-server variant).
Each constructor stands for one appended f-string, carrying the numeric
or textual payloads interpolated into it; the surrounding prose of the
message is fixed text. -/
inductive Insight where
  | veryShortSessions (minutes : ℚ)
  | longEngagement (minutes : ℚ)
  | highBounceRate (rate : ℚ)
  | excellentBounceRate (rate : ℚ)
  | criticalErrorRate (rate : ℚ)
  | errorRateAttention (rate : ℚ)
  | errorRateMonitor (rate : ℚ)
  | noErrorsDetected
  | mobileFirst (pct : ℚ)
  | desktopDominated (pct : ℚ)
  | browserDominates (browser : String) (pct : ℚ)
  | peakUsage (hour : Nat) (count : Nat)
deriving Repr, DecidableEq

/-- The engagement-duration block of `generate_insights`:
`avg_duration_min < 1` or `> 10`. -/
def durationInsights (p : Patterns) : List Insight :=
  let m := p.avg_duration / 60000
  if m < 1 then [.veryShortSessions m]
  else if 10 < m then [.longEngagement m]
  else []

/-- The bounce-rate block: `bounce_rate > 70` warns, `< 30` praises. -/
def bounceInsights (p : Patterns) : List Insight :=
  if 70 < p.bounce_rate then [.highBounceRate p.bounce_rate]
  else if p.bounce_rate < 30 then [.excellentBounceRate p.bounce_rate]
  else []

/-- The error-rate block: an exhaustive if/elif/elif/else chain, the
final branch being the no-errors note. -/
def errorInsights (p : Patterns) : List Insight :=
  if 50 < p.error_rate then [.criticalErrorRate p.error_rate]
  else if 20 < p.error_rate then [.errorRateAttention p.error_rate]
  else if 0 < p.error_rate then [.errorRateMonitor p.error_rate]
  else [.noErrorsDetected]

/-- The mobile-share block: `> 50` mobile-first, `< 20`
desktop-dominated (reporting `100 - mobile_pct`). -/
def mobileInsights (p : Patterns) : List Insight :=
  if 50 < p.mobile_percentage then [.mobileFirst p.mobile_percentage]
  else if p.mobile_percentage < 20 then [.desktopDominated (100 - p.mobile_percentage)]
  else []

/-- The browser block: on a non-empty browser table, report the first
key of maximal count and its share of the value sum. -/
def browserInsights (p : Patterns) : List Insight :=
  match p.browsers with
  | [] => []
  | q :: rest =>
    let top := maxByValue q rest
    [.browserDominates top ((dictGetD p.browsers top 0 : ℚ) / (dictValuesSum p.browsers : ℚ) * 100)]

/-- The peak-hour block: report the head of `peak_hours` when present. -/
def peakInsights (p : Patterns) : List Insight :=
  match p.peak_hours with
  | [] => []
  | ph :: _ => [.peakUsage ph.1 ph.2]

/-- `SessionAnalyzer.generate_insights` (working-server variant): the
concatenation, in source order, of the six append blocks. -/
def generateInsights (p : Patterns) : List Insight :=
  durationInsights p ++ bounceInsights p ++ errorInsights p
    ++ mobileInsights p ++ browserInsights p ++ peakInsights p

/-- The view `generate_insights` takes of the empty-input sentinel dict
`{"error": "No sessions to analyze"}`: every access in the function goes
through `.get` with default `{}` or `0`, so each numeric field reads 0,
each table reads empty, and the peak-hour list reads empty. The only
field never read by `generate_insights` is `top_browser`, set here to
the categorical default. -/
def emptyPatterns : Patterns :=
  { total_sessions := 0
    unique_users := 0
    geographic_distribution := []
    top_countries := []
    browsers := []
    devices := []
    platforms := []
    top_browser := "Unknown"
    mobile_percentage := 0
    avg_duration := 0
    avg_pages := 0
    avg_events := 0
    bounce_rate := 0
    high_engagement_sessions := 0
    error_rate := 0
    sessions_with_errors := 0
    hourly_distribution := []
    peak_hours := [] }

/-- Critical issues of the full-server variant:
`{k: v for k, v in issue_types.items() if v > num_sessions * 0.1}`. The
float literal `0.1` is the rational `1/10`; on the integer counts and
session totals involved, the float comparison of the source and the
exact rational comparison agree. -/
def criticalIssuesOf (sessions : List Session) : List (String × Nat) :=
  (issueTypesOf sessions).filter
    (fun p => decide ((sessions.length : ℚ) * (1 / 10) < (p.2 : ℚ)))

/-- The value of `patterns['user_metrics']` at the moment the dict
literal for the new user metrics is evaluated in the full-server
variant: still the initial empty dict `{}`, because Python evaluates the
whole literal before assigning it. -/
def userMetricsAtEval : List (String × Nat) := []

/-- In the full-server variant, `avg_sessions_per_user` is
`num_sessions / max(1, patterns['user_metrics'].get('unique_users', 1))`
evaluated while `patterns['user_metrics']` is still `{}`. -/
def avgSessionsPerUser (sessions : List Session) : ℚ :=
  (sessions.length : ℚ) / ((max 1 (dictGetD userMetricsAtEval "unique_users" 1) : Nat) : ℚ)

/-- A fixed hour extraction used for concrete evaluations. -/
def hourOf0 : Int → Fin 24 := fun _ => 0

/-- A session with every field absent. -/
def sEmpty : Session := {}

/-- First session of the spec example: duration 0, one page, no errors. -/
def sessionA : Session := { duration := some 0, pagesCount := some 1, errorsCount := some 0 }

/-- Second session of the spec example: duration 600000 ms, one page,
one error. -/
def sessionB : Session := { duration := some 600000, pagesCount := some 1, errorsCount := some 1 }

/-- A session tagged with the issue type of the spec example. -/
def sRage : Session := { issueTypes := ["rage_click"] }

/-- A population of 100 sessions of which 11 carry the rage-click tag. -/
def sessions100 : List Session := List.replicate 11 sRage ++ List.replicate 89 sEmpty

/-- A summary whose bounce rate is exactly 70 percent. -/
def patternsBounce70 : Patterns := { emptyPatterns with bounce_rate := 70 }

/-- A summary whose bounce rate is exactly 30 percent. -/
def patternsBounce30 : Patterns := { emptyPatterns with bounce_rate := 30 }

/-! Helper lemmas about the frequency-table operations. -/

theorem dictValuesSum_dictIncr (k : String) (d : List (String × Nat)) :
    dictValuesSum (dictIncr k d) = dictValuesSum d + 1 := by
  induction d with
  | nil => rfl
  | cons hd tl ih =>
    obtain ⟨k1, v⟩ := hd
    simp only [dictValuesSum] at ih
    by_cases hk : k1 = k
    · simp [dictIncr, dictValuesSum, hk]
      omega
    · simp [dictIncr, dictValuesSum, hk]
      omega

theorem dictGetD_le_sum (d : List (String × Nat)) (k : String) :
    dictGetD d k 0 ≤ dictValuesSum d := by
  induction d with
  | nil => simp [dictGetD, dictValuesSum]
  | cons hd tl ih =>
    obtain ⟨k1, v⟩ := hd
    simp only [dictValuesSum] at ih
    by_cases hk : k1 = k
    · simp [dictGetD, dictValuesSum, hk]
    · simp [dictGetD, dictValuesSum, hk]
      omega

theorem dictValuesSum_foldl_dictIncr (f : Session → String)
    (sessions : List Session) (d0 : List (String × Nat)) :
    dictValuesSum (sessions.foldl (fun d s => dictIncr (f s) d) d0)
      = dictValuesSum d0 + sessions.length := by
  induction sessions generalizing d0 with
  | nil => simp
  | cons s rest ih =>
    simp only [List.foldl_cons, List.length_cons]
    rw [ih, dictValuesSum_dictIncr]
    omega

theorem dictGetD_dictIncr (k1 k : String) (d : List (String × Nat)) :
    dictGetD (dictIncr k1 d) k 0 = dictGetD d k 0 + (if k1 = k then 1 else 0) := by
  induction d with
  | nil =>
    by_cases hk : k1 = k
    · simp [dictIncr, dictGetD, hk]
    · simp [dictIncr, dictGetD, hk]
  | cons hd tl ih =>
    obtain ⟨k2, v⟩ := hd
    by_cases h2 : k2 = k1
    · subst h2
      by_cases hk : k2 = k
      · simp [dictIncr, dictGetD, hk]
      · simp [dictIncr, dictGetD, hk]
    · by_cases hk : k2 = k
      · have hk1 : ¬ k1 = k := fun h => h2 (hk.trans h.symm)
        simp [dictIncr, dictGetD, h2, hk, hk1, Ne.symm hk1]
      · simp [dictIncr, dictGetD, h2, hk, ih]

theorem dictGetD_foldl_dictIncr (f : Session → String) (k : String)
    (sessions : List Session) (d0 : List (String × Nat)) :
    dictGetD (sessions.foldl (fun d s => dictIncr (f s) d) d0) k 0
      = dictGetD d0 k 0 + sessions.countP (fun s => f s = k) := by
  induction sessions generalizing d0 with
  | nil => simp
  | cons s rest ih =>
    simp only [List.foldl_cons, List.countP_cons]
    rw [ih, dictGetD_dictIncr]
    by_cases hk : f s = k
    · simp [hk]
      omega
    · simp [hk]

/-! Projection lemmas for the summary record. -/

theorem mkPatterns_total_sessions (hourOf : Int → Fin 24) (sessions : List Session) :
    (mkPatterns hourOf sessions).total_sessions = sessions.length := rfl

theorem mkPatterns_browsers (hourOf : Int → Fin 24) (sessions : List Session) :
    (mkPatterns hourOf sessions).browsers = browsersOf sessions := rfl

theorem mkPatterns_devices (hourOf : Int → Fin 24) (sessions : List Session) :
    (mkPatterns hourOf sessions).devices = devicesOf sessions := rfl

theorem mkPatterns_bounce_rate (hourOf : Int → Fin 24) (sessions : List Session) :
    (mkPatterns hourOf sessions).bounce_rate
      = if 0 < sessions.length then
          (sessions.countP (fun s => s.pagesCount.getD 0 ≤ 1) : ℚ) / (sessions.length : ℚ) * 100
        else 0 := rfl

theorem mkPatterns_error_rate (hourOf : Int → Fin 24) (sessions : List Session) :
    (mkPatterns hourOf sessions).error_rate
      = if 0 < sessions.length then
          (sessions.countP (fun s => 0 < s.errorsCount.getD 0) : ℚ) / (sessions.length : ℚ) * 100
        else 0 := rfl

theorem mkPatterns_mobile_percentage (hourOf : Int → Fin 24) (sessions : List Session) :
    (mkPatterns hourOf sessions).mobile_percentage
      = if 0 < sessions.length then
          (dictGetD (devicesOf sessions) "Mobile" 0 : ℚ) / (sessions.length : ℚ) * 100
        else 0 := rfl

/-- Percentages of the form count / total * 100 stay in [0, 100] when
the count is at most the total. -/
theorem rate_bounds (c n : Nat) (hn : 0 < n) (hc : c ≤ n) :
    0 ≤ (c : ℚ) / (n : ℚ) * 100 ∧ (c : ℚ) / (n : ℚ) * 100 ≤ 100 := by
  have hn2 : (0 : ℚ) < (n : ℚ) := by exact_mod_cast hn
  have hc2 : (c : ℚ) ≤ (n : ℚ) := by exact_mod_cast hc
  constructor
  · positivity
  · have h1 : (c : ℚ) / (n : ℚ) ≤ 1 := (div_le_one hn2).mpr hc2
    calc (c : ℚ) / (n : ℚ) * 100 ≤ 1 * 100 := by
          exact mul_le_mul_of_nonneg_right h1 (by norm_num)
      _ = 100 := by norm_num

/-! Membership characterizations of the insight blocks. -/

theorem mem_durationInsights {x : Insight} {p : Patterns} (h : x ∈ durationInsights p) :
    (∃ m, x = Insight.veryShortSessions m) ∨ ∃ m, x = Insight.longEngagement m := by
  simp only [durationInsights] at h
  split_ifs at h with h1 h2
  · exact Or.inl ⟨_, List.mem_singleton.mp h⟩
  · exact Or.inr ⟨_, List.mem_singleton.mp h⟩
  · simp at h

theorem mem_bounceInsights {x : Insight} {p : Patterns} (h : x ∈ bounceInsights p) :
    (x = Insight.highBounceRate p.bounce_rate ∧ 70 < p.bounce_rate) ∨
      (x = Insight.excellentBounceRate p.bounce_rate ∧ p.bounce_rate < 30) := by
  simp only [bounceInsights] at h
  split_ifs at h with h1 h2
  · exact Or.inl ⟨List.mem_singleton.mp h, h1⟩
  · exact Or.inr ⟨List.mem_singleton.mp h, h2⟩
  · simp at h

theorem mem_errorInsights {x : Insight} {p : Patterns} (h : x ∈ errorInsights p) :
    (∃ m, x = Insight.criticalErrorRate m) ∨ (∃ m, x = Insight.errorRateAttention m)
      ∨ (∃ m, x = Insight.errorRateMonitor m) ∨ x = Insight.noErrorsDetected := by
  simp only [errorInsights] at h
  split_ifs at h with h1 h2 h3
  · exact Or.inl ⟨_, List.mem_singleton.mp h⟩
  · exact Or.inr (Or.inl ⟨_, List.mem_singleton.mp h⟩)
  · exact Or.inr (Or.inr (Or.inl ⟨_, List.mem_singleton.mp h⟩))
  · exact Or.inr (Or.inr (Or.inr (List.mem_singleton.mp h)))

theorem mem_mobileInsights {x : Insight} {p : Patterns} (h : x ∈ mobileInsights p) :
    (∃ m, x = Insight.mobileFirst m) ∨ ∃ m, x = Insight.desktopDominated m := by
  simp only [mobileInsights] at h
  split_ifs at h with h1 h2
  · exact Or.inl ⟨_, List.mem_singleton.mp h⟩
  · exact Or.inr ⟨_, List.mem_singleton.mp h⟩
  · simp at h

theorem mem_browserInsights {x : Insight} {p : Patterns} (h : x ∈ browserInsights p) :
    ∃ b q, x = Insight.browserDominates b q := by
  rcases hpb : p.browsers with _ | ⟨q, rest⟩ <;>
    simp only [browserInsights, hpb] at h
  · simp at h
  · exact ⟨_, _, List.mem_singleton.mp h⟩

theorem mem_peakInsights {x : Insight} {p : Patterns} (h : x ∈ peakInsights p) :
    ∃ a b, x = Insight.peakUsage a b := by
  rcases hph : p.peak_hours with _ | ⟨ph, rest⟩ <;>
    simp only [peakInsights, hph] at h
  · simp at h
  · exact ⟨_, _, List.mem_singleton.mp h⟩

/-- The insight list computed on the empty-input sentinel view: the zero
defaults fire the very-short-sessions rule, the excellent-bounce rule,
the no-errors rule and the desktop-dominated rule. -/
theorem generateInsights_emptyPatterns :
    generateInsights emptyPatterns =
      [Insight.veryShortSessions 0, Insight.excellentBounceRate 0,
        Insight.noErrorsDetected, Insight.desktopDominated 100] := by
  norm_num [generateInsights, durationInsights, bounceInsights, errorInsights,
    mobileInsights, browserInsights, peakInsights, emptyPatterns]

/-! Instances making the descending-by-count relation usable with the
sortedness lemma of insertion sort. -/

instance {α : Type} : IsTotal (α × Nat) (fun a b => b.2 ≤ a.2) :=
  ⟨fun a b => le_total b.2 a.2⟩

instance {α : Type} : IsTrans (α × Nat) (fun a b => b.2 ≤ a.2) :=
  ⟨fun _ _ _ hab hbc => le_trans hbc hab⟩

/-! Claim theorems. -/

/-- C1 counterexample: on the empty-input sentinel, the insight list is
not empty and contains an insight different from the no-errors note, so
it is not the case that it holds only the no-errors text or nothing. -/
theorem empty_input_insights_not_only_no_errors :
    Insight.veryShortSessions 0 ∈ generateInsights emptyPatterns ∧
      Insight.veryShortSessions 0 ≠ Insight.noErrorsDetected ∧
      generateInsights emptyPatterns ≠ [] := by
  refine ⟨?_, by simp, ?_⟩
  · rw [generateInsights_emptyPatterns]
    simp
  · rw [generateInsights_emptyPatterns]
    simp

/-- C1 (amended): for the empty input list, `analyze_session_patterns`
returns the explicit no-sessions sentinel without raising, and
`generate_insights` on that sentinel returns, without raising, a list
that contains the no-errors note, but also the very-short-sessions,
excellent-bounce-rate and desktop-dominated insights fired by the zero
defaults. -/
theorem empty_input_sentinel_and_default_insights :
    (∀ hourOf : Int → Fin 24,
        analyze_session_patterns hourOf [] = AnalyzeResult.error "No sessions to analyze") ∧
      generateInsights emptyPatterns =
        [Insight.veryShortSessions 0, Insight.excellentBounceRate 0,
          Insight.noErrorsDetected, Insight.desktopDominated 100] :=
  ⟨fun _ => rfl, generateInsights_emptyPatterns⟩

/-- C2: for every non-empty session list, the summary produced by
`analyze_session_patterns` has bounce rate, error rate and mobile
percentage all within 0 and 100. -/
theorem rates_within_percent_bounds (hourOf : Int → Fin 24) (sessions : List Session)
    (h : sessions ≠ []) :
    analyze_session_patterns hourOf sessions = AnalyzeResult.ok (mkPatterns hourOf sessions) ∧
      (0 ≤ (mkPatterns hourOf sessions).bounce_rate
        ∧ (mkPatterns hourOf sessions).bounce_rate ≤ 100) ∧
      (0 ≤ (mkPatterns hourOf sessions).error_rate
        ∧ (mkPatterns hourOf sessions).error_rate ≤ 100) ∧
      (0 ≤ (mkPatterns hourOf sessions).mobile_percentage
        ∧ (mkPatterns hourOf sessions).mobile_percentage ≤ 100) := by
  have hn : 0 < sessions.length := List.length_pos.mpr h
  refine ⟨?_, ?_, ?_, ?_⟩
  · simp [analyze_session_patterns, List.isEmpty_iff, h]
  · rw [mkPatterns_bounce_rate, if_pos hn]
    exact rate_bounds _ _ hn (List.countP_le_length _)
  · rw [mkPatterns_error_rate, if_pos hn]
    exact rate_bounds _ _ hn (List.countP_le_length _)
  · rw [mkPatterns_mobile_percentage, if_pos hn]
    refine rate_bounds _ _ hn ?_
    calc dictGetD (devicesOf sessions) "Mobile" 0
        ≤ dictValuesSum (devicesOf sessions) := dictGetD_le_sum _ _
      _ = sessions.length := by
          unfold devicesOf
          rw [dictValuesSum_foldl_dictIncr]
          simp [dictValuesSum]

/-- C2 witness at a concrete one-session input. -/
theorem rates_within_percent_bounds_witness :
    analyze_session_patterns hourOf0 [sEmpty] = AnalyzeResult.ok (mkPatterns hourOf0 [sEmpty]) ∧
      (0 ≤ (mkPatterns hourOf0 [sEmpty]).bounce_rate
        ∧ (mkPatterns hourOf0 [sEmpty]).bounce_rate ≤ 100) ∧
      (0 ≤ (mkPatterns hourOf0 [sEmpty]).error_rate
        ∧ (mkPatterns hourOf0 [sEmpty]).error_rate ≤ 100) ∧
      (0 ≤ (mkPatterns hourOf0 [sEmpty]).mobile_percentage
        ∧ (mkPatterns hourOf0 [sEmpty]).mobile_percentage ≤ 100) :=
  rates_within_percent_bounds hourOf0 [sEmpty] (List.cons_ne_nil _ _)

/-- C3 counterexample: a session missing the device-class field is
tallied under the Desktop bucket, and the Unknown bucket of the device
table stays at zero. -/
theorem missing_device_not_counted_unknown :
    (mkPatterns hourOf0 [sEmpty]).devices = [("Desktop", 1)] ∧
      dictGetD ((mkPatterns hourOf0 [sEmpty]).devices) "Unknown" 0 = 0 := by
  constructor
  · decide
  · decide

/-- C3 (amended): the Desktop bucket of the device table counts exactly
the sessions whose device key resolves to Desktop, and a session with
the device-class field absent resolves to Desktop (the device default of
the code is Desktop, not Unknown). -/
theorem missing_device_counted_desktop :
    (∀ (hourOf : Int → Fin 24) (sessions : List Session),
        dictGetD ((mkPatterns hourOf sessions).devices) "Desktop" 0
          = sessions.countP (fun s => deviceKey s = "Desktop")) ∧
      ∀ s : Session, s.userDevice = none → deviceKey s = "Desktop" := by
  constructor
  · intro hourOf sessions
    rw [mkPatterns_devices]
    unfold devicesOf
    rw [dictGetD_foldl_dictIncr]
    simp [dictGetD]
  · intro s hs
    unfold deviceKey
    rw [hs]

/-- C3 witness at a concrete one-session input. -/
theorem missing_device_counted_desktop_witness :
    dictGetD ((mkPatterns hourOf0 [sEmpty]).devices) "Desktop" 0
        = [sEmpty].countP (fun s => deviceKey s = "Desktop") ∧
      deviceKey sEmpty = "Desktop" :=
  ⟨missing_device_counted_desktop.1 hourOf0 [sEmpty],
    missing_device_counted_desktop.2 sEmpty rfl⟩

/-- C4: on the two-session example of the spec, the summary has average
duration 300000 ms, bounce rate 100 and error rate 50. -/
theorem two_session_example_metrics :
    analyze_session_patterns hourOf0 [sessionA, sessionB]
        = AnalyzeResult.ok (mkPatterns hourOf0 [sessionA, sessionB]) ∧
      (mkPatterns hourOf0 [sessionA, sessionB]).avg_duration = 300000 ∧
      (mkPatterns hourOf0 [sessionA, sessionB]).bounce_rate = 100 ∧
      (mkPatterns hourOf0 [sessionA, sessionB]).error_rate = 50 := by
  refine ⟨rfl, ?_, ?_, ?_⟩
  · norm_num [mkPatterns, sessionA, sessionB, List.countP, List.countP.go]
  · norm_num [mkPatterns, sessionA, sessionB, List.countP, List.countP.go]
  · norm_num [mkPatterns, sessionA, sessionB, List.countP, List.countP.go]

/-- C5: an issue type appears in the critical-issues table of the
full-server variant exactly when its count strictly exceeds one tenth of
the total session count. -/
theorem critical_issues_strict_ten_percent (sessions : List Session) (k : String) (v : Nat)
    (_h : sessions ≠ []) :
    (k, v) ∈ criticalIssuesOf sessions ↔
      ((k, v) ∈ issueTypesOf sessions ∧ (sessions.length : ℚ) * (1 / 10) < (v : ℚ)) := by
  unfold criticalIssuesOf
  rw [List.mem_filter]
  simp

/-- C5 witness: in a population of 100 sessions of which 11 carry the
rage-click tag, that tag is a critical issue. -/
theorem critical_issues_strict_ten_percent_witness :
    ("rage_click", 11) ∈ criticalIssuesOf sessions100 :=
  (critical_issues_strict_ten_percent sessions100 "rage_click" 11 (by decide)).mpr
    ⟨by decide, by norm_num [sessions100]⟩

/-- An entry of an enumeration carries an element of the underlying
list in its second component. -/
theorem snd_mem_of_mem_enumFrom {α : Type} {p : Nat × α} :
    ∀ {n : Nat} {l : List α}, p ∈ List.enumFrom n l → p.2 ∈ l := by
  intro n l
  induction l generalizing n with
  | nil =>
    intro hp
    simp [List.enumFrom] at hp
  | cons a t ih =>
    intro hp
    simp only [List.enumFrom, List.mem_cons] at hp
    rcases hp with hp | hp
    · subst hp
      simp
    · exact List.mem_cons_of_mem _ (ih hp)

/-- C6: the frequency rankings are sorted descending by count, and ties
are broken by first-encountered order: on any hour histogram whose hours
0 and 1 are tied at 5 with every other hour lower, hour 0 ranks before
hour 1 in the peak-hours list. -/
theorem rankings_sorted_desc_stable_ties :
    (∀ l : List (String × Nat),
        List.Sorted (fun a b => b.2 ≤ a.2) (sortDescByCount l)) ∧
      (∀ hist : List Nat,
        List.Sorted (fun a b => b.2 ≤ a.2) (sortDescByCount hist.enum)) ∧
      ∀ rest : List Nat, (∀ x ∈ rest, x < 5) →
        (peakHoursOf (5 :: 5 :: rest)).take 2 = [(0, 5), (1, 5)] := by
  refine ⟨fun l => List.sorted_insertionSort _ l, fun hist => List.sorted_insertionSort _ _, ?_⟩
  intro rest hrest
  have key : ∀ S : List (Nat × Nat), (∀ p ∈ S, p.2 < 5) →
      ((List.orderedInsert (fun a b => b.2 ≤ a.2) (0, 5)
          (List.orderedInsert (fun a b => b.2 ≤ a.2) (1, 5) S)).take 3).take 2
        = [(0, 5), (1, 5)] := by
    intro S hmemS
    have h1 : List.orderedInsert (fun a b : Nat × Nat => b.2 ≤ a.2) (1, 5) S = (1, 5) :: S := by
      cases S with
      | nil => rfl
      | cons hd tl =>
        have hle : hd.2 ≤ 5 := le_of_lt (hmemS hd (by simp))
        simp [List.orderedInsert, hle]
    rw [h1]
    have h2 : List.orderedInsert (fun a b : Nat × Nat => b.2 ≤ a.2) (0, 5) ((1, 5) :: S)
        = (0, 5) :: (1, 5) :: S := by
      simp [List.orderedInsert]
    rw [h2]
    simp
  have henum : (5 :: 5 :: rest).enum = (0, 5) :: (1, 5) :: List.enumFrom 2 rest := rfl
  unfold peakHoursOf sortDescByCount
  rw [henum]
  simp only [List.insertionSort]
  refine key _ ?_
  intro p hp
  have hp2 : p ∈ List.enumFrom 2 rest := (List.perm_insertionSort _ _).mem_iff.mp hp
  exact hrest _ (snd_mem_of_mem_enumFrom hp2)

/-- C6 witness: the histogram of the spec example, hours 0 and 1 tied at
5 and hour 2 at 3, ranks hour 0 first and hour 1 second. -/
theorem rankings_sorted_desc_stable_ties_witness :
    (peakHoursOf
        (5 :: 5 :: [3, 0, 0, 0, 0, 0, 0, 0, 0, 0, 0, 0, 0, 0, 0, 0, 0, 0, 0, 0, 0, 0])).take 2
      = [(0, 5), (1, 5)] :=
  rankings_sorted_desc_stable_ties.2.2 _ (by decide)

/-- C7: the bounce-rate thresholds are strict: at exactly 70 the high
bounce warning is absent from the insight list, at exactly 30 the
excellent bounce note is absent. -/
theorem bounce_thresholds_are_strict (p : Patterns) :
    (p.bounce_rate = 70 → ∀ r, Insight.highBounceRate r ∉ generateInsights p) ∧
      (p.bounce_rate = 30 → ∀ r, Insight.excellentBounceRate r ∉ generateInsights p) := by
  constructor
  · intro h70 r hmem
    simp only [generateInsights, List.mem_append] at hmem
    rcases hmem with ((((hm | hm) | hm) | hm) | hm) | hm
    · rcases mem_durationInsights hm with ⟨m, hx⟩ | ⟨m, hx⟩ <;> simp at hx
    · rcases mem_bounceInsights hm with ⟨hx, hlt⟩ | ⟨hx, hlt⟩
      · rw [h70] at hlt
        exact absurd hlt (by norm_num)
      · simp at hx
    · rcases mem_errorInsights hm with ⟨m, hx⟩ | ⟨m, hx⟩ | ⟨m, hx⟩ | hx <;> simp at hx
    · rcases mem_mobileInsights hm with ⟨m, hx⟩ | ⟨m, hx⟩ <;> simp at hx
    · obtain ⟨b, q, hx⟩ := mem_browserInsights hm
      simp at hx
    · obtain ⟨a, b, hx⟩ := mem_peakInsights hm
      simp at hx
  · intro h30 r hmem
    simp only [generateInsights, List.mem_append] at hmem
    rcases hmem with ((((hm | hm) | hm) | hm) | hm) | hm
    · rcases mem_durationInsights hm with ⟨m, hx⟩ | ⟨m, hx⟩ <;> simp at hx
    · rcases mem_bounceInsights hm with ⟨hx, hlt⟩ | ⟨hx, hlt⟩
      · simp at hx
      · rw [h30] at hlt
        exact absurd hlt (by norm_num)
    · rcases mem_errorInsights hm with ⟨m, hx⟩ | ⟨m, hx⟩ | ⟨m, hx⟩ | hx <;> simp at hx
    · rcases mem_mobileInsights hm with ⟨m, hx⟩ | ⟨m, hx⟩ <;> simp at hx
    · obtain ⟨b, q, hx⟩ := mem_browserInsights hm
      simp at hx
    · obtain ⟨a, b, hx⟩ := mem_peakInsights hm
      simp at hx

/-- C7 witness at two concrete summaries with bounce rates exactly 70
and exactly 30. -/
theorem bounce_thresholds_are_strict_witness :
    Insight.highBounceRate 70 ∉ generateInsights patternsBounce70 ∧
      Insight.excellentBounceRate 30 ∉ generateInsights patternsBounce30 :=
  ⟨(bounce_thresholds_are_strict patternsBounce70).1 rfl 70,
    (bounce_thresholds_are_strict patternsBounce30).2 rfl 30⟩

/-- C8: the browser frequency table of the summary sums to the total
session count, since every session contributes exactly one increment
(a missing browser value lands in the Unknown bucket). -/
theorem browser_table_sums_to_total (hourOf : Int → Fin 24) (sessions : List Session) :
    dictValuesSum ((mkPatterns hourOf sessions).browsers)
      = (mkPatterns hourOf sessions).total_sessions := by
  rw [mkPatterns_browsers, mkPatterns_total_sessions]
  unfold browsersOf
  rw [dictValuesSum_foldl_dictIncr]
  simp [dictValuesSum]

/-- C9: in the full-server variant, avg_sessions_per_user always equals
the total session count, because the unique-user divisor is read from a
dict that is still empty at that point and so defaults to 1. -/
theorem avg_sessions_per_user_always_total (sessions : List Session) (_h : sessions ≠ []) :
    avgSessionsPerUser sessions = (sessions.length : ℚ) := by
  unfold avgSessionsPerUser userMetricsAtEval
  norm_num [dictGetD]

/-- C9 witness at a concrete one-session input. -/
theorem avg_sessions_per_user_always_total_witness :
    avgSessionsPerUser [sEmpty] = (([sEmpty].length : Nat) : ℚ) :=
  avg_sessions_per_user_always_total [sEmpty] (List.cons_ne_nil _ _)

/-- C10: the error-rate block always emits exactly one insight (its
final else branch is the no-errors note), so `generate_insights` never
returns an empty list, on the empty-input sentinel view included. -/
theorem insights_never_empty :
    (∀ p : Patterns, (errorInsights p).length = 1) ∧
      ∀ p : Patterns, generateInsights p ≠ [] := by
  have hlen : ∀ p : Patterns, (errorInsights p).length = 1 := by
    intro p
    unfold errorInsights
    split_ifs
    · rfl
    · rfl
    · rfl
    · rfl
  refine ⟨hlen, fun p hnil => ?_⟩
  have hcongr := congrArg List.length hnil
  simp only [generateInsights, List.length_append, List.length_nil] at hcongr
  rw [hlen p] at hcongr
  omega
